import Mathlib

/-!
Verification of the arcade prototype in `src/main.py` ("Big Barber Battle"):
a shallow embedding of its core simulation logic — the particle system, the
high-score ledger (`HighScoreGate` / `HighScoreBoard`), the Precision Cut
timing engine (`PrecisionCutGame`) and the Street Brawl fight simulation
(`StreetBrawlGame`) — together with theorems settling the specification
claims about them.

Python floats are embedded as `ℚ`, Python ints as `ℤ`; `int()` on a float
is truncation toward zero (`pyInt`).  Randomness (particle spawn parameters,
the AI's per-frame random draws) is modelled as explicit per-frame input.
-/

namespace BigBarberBattle

/-- `clamp` from main.py line 78: `max(lo, min(hi, v))`. -/
def clamp (v lo hi : ℚ) : ℚ := max lo (min hi v)

/-- Python `int()` applied to a (rational-embedded) float: truncation toward
zero (`Int.tdiv` is truncating division). -/
def pyInt (q : ℚ) : ℤ := Int.tdiv q.num (q.den : ℤ)

/-! ## Particle system (main.py lines 297-321) -/

/-- `Particle` dataclass (lines 297-306).  Colors are RGB triples. -/
structure Particle where
  x : ℚ
  y : ℚ
  vx : ℚ
  vy : ℚ
  life : ℚ
  color : ℕ × ℕ × ℕ
  size : ℚ
  gravity : ℚ := 0
deriving DecidableEq, Repr

/-- `Particle.update` (lines 308-313): decrement life, apply drag to `vx`,
gravity to `vy`, then integrate position with the updated velocities. -/
def pUpdate (p : Particle) (dt : ℚ) : Particle :=
  let vx := p.vx * (49/50)
  let vy := p.vy + p.gravity * dt
  { p with life := p.life - dt, vx := vx, vy := vy,
           x := p.x + vx * dt, y := p.y + vy * dt }

/-- One advance pass over an owning collection, as both mini-games perform it
(lines 564-567 and 760-763): update every particle, then keep exactly those
with positive remaining life. -/
def advanceP (coll : List Particle) (dt : ℚ) : List Particle :=
  (coll.map (fun p => pUpdate p dt)).filter (fun p => decide (0 < p.life))

/-- A step in a particle-collection history: a spawn (`append`, lines 547,
731, 784) or an advance pass. -/
inductive POp where
  | spawn (p : Particle)
  | advance (dt : ℚ)
deriving DecidableEq, Repr

/-- Run a sequence of spawns and advances over a collection. -/
def runPOps (coll : List Particle) : List POp → List Particle
  | [] => coll
  | POp.spawn p :: ops => runPOps (coll ++ [p]) ops
  | POp.advance dt :: ops => runPOps (advanceP coll dt) ops

/-! ## Score ledger (main.py lines 884-920, 326-344) -/

/-- A high-score entry: `{"name": ..., "score": ...}`. -/
structure Entry where
  name : String
  score : ℤ
deriving DecidableEq, Repr

/-- The descending-by-score order used by `sort(key=..., reverse=True)`
(lines 891, 917): `a` precedes `b` when `a`'s score is at least `b`'s.
Python's sort is stable, and `List.insertionSort` with this relation places
an earlier-input element before later ties, which is the same behaviour. -/
def entryGE (a b : Entry) : Prop := b.score ≤ a.score

instance : DecidableRel entryGE := fun a b => inferInstanceAs (Decidable (b.score ≤ a.score))

instance : IsTotal Entry entryGE := ⟨fun a b => (le_total b.score a.score).imp id id⟩

instance : IsTrans Entry entryGE :=
  ⟨fun _ _ _ h1 h2 => le_trans h2 h1⟩

/-- `sorted(..., key=lambda s: s["score"], reverse=True)` / in-place
`arr.sort(...)`: stable descending sort by score. -/
def sortDesc (l : List Entry) : List Entry := List.insertionSort entryGE l

/-- The qualification check in `HighScoreGate.__init__` (lines 891-895):
sort a copy descending, then qualify when fewer than 10 entries, or the
score strictly exceeds the last (lowest) listed score, or the list is
empty. -/
def qualifies (board : List Entry) (score : ℤ) : Bool :=
  let scores := sortDesc board
  decide (scores.length < 10) ||
    (match scores.getLast? with
     | some e => decide (e.score < score)
     | none => false) ||
    scores.isEmpty

/-- `HighScoreGate.submit_and_continue` (lines 913-918): append the entry,
stable-sort descending by score, truncate to 10 (`del arr[10:]`). -/
def submit (board : List Entry) (e : Entry) : List Entry :=
  (sortDesc (board ++ [e])).take 10

/-- Sorted-descending predicate for score boards. -/
def SortedDesc (l : List Entry) : Prop := List.Sorted entryGE l

/-- Insertion of a new entry into an already-sorted board the way a stable
descending sort of `board ++ [e]` places it: after every existing entry
whose score is at least `e`'s (ties keep insertion order), before the first
strictly smaller one. -/
def insertAfterTies (e : Entry) : List Entry → List Entry
  | [] => [e]
  | b :: l => if e.score ≤ b.score then b :: insertAfterTies e l else e :: b :: l

/-! ## Precision Cut timing engine (main.py lines 495-572) -/

/-- Sweet-zone band top: `HEIGHT // 2 - 80` with `HEIGHT = 720` (line 507). -/
def sweetY0 : ℤ := 280

/-- Sweet-zone band bottom: `HEIGHT // 2 + 60` (line 508). -/
def sweetY1 : ℤ := 420

/-- Mutable state of `PrecisionCutGame` relevant to the simulation. -/
structure PCState where
  timeLeft : ℚ
  precisionScore : ℚ
  combo : ℤ
  comboTimer : ℚ
  sparks : List Particle
  precisionMeter : ℚ
  perfectAlpha : ℚ
deriving DecidableEq, Repr

/-- The state built by `PrecisionCutGame.__init__` (lines 496-512):
40-second budget, all meters zero. -/
def pcInit : PCState :=
  { timeLeft := 40, precisionScore := 0, combo := 0, comboTimer := 0,
    sparks := [], precisionMeter := 0, perfectAlpha := 0 }

/-- Per-frame input to `PrecisionCutGame.update`: the mouse position's `y`
coordinate, the jitter magnitude `abs(rel x) + abs(rel y)` (both are pygame
ints), whether the cut trigger is held, and the randomly-parametrised spark
particles the frame would spawn (3 per cutting frame, lines 543-547). -/
structure PCInput where
  mouseY : ℤ
  jitter : ℤ
  cutting : Bool
  newSparks : List Particle
deriving DecidableEq, Repr

/-- `in_zone` (line 537): mouse y within the sweet band. -/
def pcInZone (inp : PCInput) : Prop := sweetY0 ≤ inp.mouseY ∧ inp.mouseY ≤ sweetY1

instance (inp : PCInput) : Decidable (pcInZone inp) :=
  inferInstanceAs (Decidable (_ ∧ _))

/-- `steady` (lines 539-540): jitter below the threshold 4. -/
def pcSteady (inp : PCInput) : Prop := inp.jitter < 4

instance (inp : PCInput) : Decidable (pcSteady inp) :=
  inferInstanceAs (Decidable (_ < _))

/-- The non-terminating part of `PrecisionCutGame.update` (lines 530-568):
decrement the clock, then accumulate/decay meter, combo, combo grace timer
and score per the cutting / in-zone / steady conditions, then advance the
spark particles and fade the floating text. -/
def pcStep (s : PCState) (inp : PCInput) (dt : ℚ) : PCState :=
  let s := { s with timeLeft := s.timeLeft - dt }
  let s :=
    if inp.cutting then
      let s := { s with sparks := s.sparks ++ inp.newSparks }
      if pcInZone inp ∧ pcSteady inp then
        let meter := clamp (s.precisionMeter + (4/5) * dt) 0 1
        let combo : ℤ := s.combo + 1
        { s with precisionMeter := meter,
                 combo := combo,
                 comboTimer := 1,
                 precisionScore := s.precisionScore + 5 * dt * (1 + (combo : ℚ) * (1/50)),
                 perfectAlpha := if 19/20 < meter then 1 else s.perfectAlpha }
      else
        { s with precisionMeter := clamp (s.precisionMeter - (3/5) * dt) 0 1,
                 combo := max 0 (if s.comboTimer ≤ 0 then s.combo - 1 else s.combo) }
    else
      let ct := s.comboTimer - dt
      { s with precisionMeter := clamp (s.precisionMeter - (2/5) * dt) 0 1,
               comboTimer := ct,
               combo := if ct ≤ 0 then max 0 (s.combo - 1) else s.combo }
  { s with sparks := advanceP s.sparks dt,
           perfectAlpha := max 0 (s.perfectAlpha - dt * (6/5)) }

/-- `PrecisionCutGame.finish_game` (lines 570-571):
`int(precision_score * 10 + precision_meter * 100)`. -/
def pcFinalScore (s : PCState) : ℤ :=
  pyInt (s.precisionScore * 10 + s.precisionMeter * 100)

/-- Outcome of one `update` call: either the game just finished with its
final score, or it is still running with a new state. -/
inductive PCResult where
  | finished (score : ℤ)
  | running (s : PCState)
deriving DecidableEq, Repr

/-- `PrecisionCutGame.update` (lines 530-534 plus the rest): subtract `dt`
from the clock; if it hit zero, finish with the score computed from the
pre-frame accumulators; otherwise run the frame. -/
def pcUpdate (s : PCState) (inp : PCInput) (dt : ℚ) : PCResult :=
  if s.timeLeft - dt ≤ 0 then PCResult.finished (pcFinalScore s)
  else PCResult.running (pcStep s inp dt)

/-- Run a list of frames (input and `dt` per frame); once finished, later
frames are ignored (the scene is replaced). -/
def pcRun (s : PCState) : List (PCInput × ℚ) → PCResult
  | [] => PCResult.running s
  | f :: fs =>
    match pcUpdate s f.1 f.2 with
    | PCResult.finished sc => PCResult.finished sc
    | PCResult.running s1 => pcRun s1 fs

/-- The combo counter of a result, when still running. -/
def pcComboOf : PCResult → Option ℤ
  | PCResult.finished _ => none
  | PCResult.running s => some s.combo

/-- A frame input satisfying the "in-zone and active" condition: trigger
held, mouse inside the sweet band, zero jitter, no sparks supplied. -/
def goodInput : PCInput := { mouseY := 350, jitter := 0, cutting := true, newSparks := [] }

/-- A frame input with the trigger held but the mouse out of the sweet
band. -/
def badCutInput : PCInput := { mouseY := 0, jitter := 0, cutting := true, newSparks := [] }

/-- Iterate `pcStep` from the initial state with constant good input and a
fixed `dt`. -/
def goodIter : ℕ → ℚ → PCState
  | 0, _ => pcInit
  | n + 1, dt => pcStep (goodIter n dt) goodInput dt

/-! ## Street Brawl fight simulation (main.py lines 653-810) -/

/-- The discrete fighter state (line 663). -/
inductive FState where
  | idle
  | walk
  | attack
  | super
  | dodge
  | hit
deriving DecidableEq, Repr

/-- The `Fighter` dataclass (lines 653-667). -/
structure Fighter where
  name : String
  x : ℚ
  y : ℚ
  facing : ℤ
  hp : ℤ := 100
  superMeter : ℚ := 0
  onGround : Bool := true
  vy : ℚ := 0
  state : FState := FState.idle
  stateTimer : ℚ := 0
deriving DecidableEq, Repr

/-- An integer pygame `Rect` (x, y, width, height). -/
structure PRect where
  x : ℤ
  y : ℤ
  w : ℤ
  h : ℤ
deriving DecidableEq, Repr

/-- `Rect.centerx`: `x + w // 2` with Python floor division (w is
positive here, so plain integer division). -/
def PRect.centerx (r : PRect) : ℤ := r.x + r.w / 2

/-- `Fighter.rect` (lines 666-667): `Rect(int(x) - 40, int(y) - 110, 80, 110)`. -/
def Fighter.rect (f : Fighter) : PRect :=
  { x := pyInt f.x - 40, y := pyInt f.y - 110, w := 80, h := 110 }

/-- `pygame.Rect.colliderect`: the rectangles share interior area (touching
edges only do not collide). -/
def collide (a b : PRect) : Prop :=
  a.x < b.x + b.w ∧ b.x < a.x + a.w ∧ a.y < b.y + b.h ∧ b.y < a.y + a.h

instance (a b : PRect) : Decidable (collide a b) :=
  inferInstanceAs (Decidable (_ ∧ _ ∧ _ ∧ _))

/-- `StreetBrawlGame.try_hit` (lines 769-784): build the attack hitbox from
the attacker's rect and facing, and on collision with the defender's body
deal damage (floored at 0), put the defender into hit-stun (timer 0.3) with
upward velocity -120, make it airborne, knock it back by
`facing * impulse * 0.05`, and spawn a randomly-parametrised foam burst
(supplied here as `foam`).  Returns the updated defender and the spawned
particles. -/
def tryHit (a b : Fighter) (dmg : ℤ) (impulse : ℚ) (wide : Bool)
    (foam : List Particle) : Fighter × List Particle :=
  let ar := a.rect
  let hitbox : PRect :=
    if wide then
      if 0 < a.facing then { x := ar.centerx, y := ar.y + 10, w := 220, h := 90 }
      else { x := ar.centerx - 220, y := ar.y + 10, w := 220, h := 90 }
    else
      if 0 < a.facing then { x := ar.centerx + 20, y := ar.y + 10, w := 60, h := 60 }
      else { x := ar.centerx - 80, y := ar.y + 10, w := 60, h := 60 }
  if collide hitbox b.rect then
    ({ b with hp := max 0 (b.hp - dmg), state := FState.hit, stateTimer := 3/10,
              vy := -120, onGround := false,
              x := b.x + (a.facing : ℚ) * impulse * (1/20) }, foam)
  else (b, [])

/-- A shockwave `[x, y, radius, life]` (line 680). -/
structure Shockwave where
  x : ℚ
  y : ℚ
  radius : ℚ
  life : ℚ
deriving DecidableEq, Repr

/-- Per-frame input to `StreetBrawlGame.update`: which of the player's keys
are currently held, the AI's two `random.random()` draws of the frame, and
the randomly-parametrised particle bursts the frame would spawn. -/
structure BrawlInput where
  keyA : Bool
  keyD : Bool
  keyW : Bool
  keyJ : Bool
  keyK : Bool
  r1 : ℚ := 1
  r2 : ℚ := 1
  superBurst : List Particle := []
  foamBasic : List Particle := []
  foamSuper : List Particle := []
deriving DecidableEq, Repr

/-- Mutable state of `StreetBrawlGame` relevant to the simulation. -/
structure BrawlState where
  floorY : ℚ
  timer : ℚ
  p1 : Fighter
  p2 : Fighter
  particles : List Particle
  shockwaves : List Shockwave
deriving DecidableEq, Repr

/-- `StreetBrawlGame.__init__` (lines 671-681): floor at `HEIGHT - 180`,
99-second countdown, Tank at `0.35 * WIDTH` facing right versus the AI
Technicus at `0.65 * WIDTH` facing left. -/
def brawlInit : BrawlState :=
  { floorY := 540, timer := 99,
    p1 := { name := "Tank", x := 448, y := 540, facing := 1 },
    p2 := { name := "Technicus", x := 832, y := 540, facing := -1 },
    particles := [], shockwaves := [] }

/-- The player's horizontal move intent (lines 699-703). -/
def moveVal (inp : BrawlInput) : ℤ :=
  (if inp.keyA then -1 else 0) + (if inp.keyD then 1 else 0)

/-- Lines 704-710: movement overwrites the state with `walk`; with no move
input the state falls back to `idle` unless in attack, super or hit-stun. -/
def stepMove (f : Fighter) (inp : BrawlInput) (dt : ℚ) : Fighter :=
  let m := moveVal inp
  if m ≠ 0 then
    { f with x := f.x + (m : ℚ) * 160 * dt,
             facing := if 0 < m then 1 else -1,
             state := FState.walk }
  else if f.state ≠ FState.attack ∧ f.state ≠ FState.super ∧ f.state ≠ FState.hit then
    { f with state := FState.idle }
  else f

/-- Lines 711-713: a jump is honored only while grounded. -/
def stepJump (f : Fighter) (inp : BrawlInput) : Fighter :=
  if inp.keyW ∧ f.onGround then { f with onGround := false, vy := -320 } else f

/-- The guard on the basic attack (line 714): `K_j` held and state not in
`("attack", "super")` — hit-stun does not block it. -/
def attackFires (f : Fighter) (inp : BrawlInput) : Bool :=
  inp.keyJ && decide (f.state ≠ FState.attack ∧ f.state ≠ FState.super)

/-- Lines 714-718: on an honored attack input, enter `attack` (timer 0.25),
evaluate the narrow hitbox against the opponent immediately, and gain 8
super meter (clamped to 100) whether or not the hit landed. -/
def stepAttack (p1 p2 : Fighter) (inp : BrawlInput) (parts : List Particle) :
    Fighter × Fighter × List Particle :=
  if attackFires p1 inp then
    let p1a := { p1 with state := FState.attack, stateTimer := 1/4 }
    let hit := tryHit p1a p2 6 140 false inp.foamBasic
    ({ p1a with superMeter := clamp (p1a.superMeter + 8) 0 100 }, hit.1, parts ++ hit.2)
  else (p1, p2, parts)

/-- The guard on the super (line 719): `K_k` held, meter full, and state is
not already `super` — attack and hit-stun do not block it. -/
def superFires (f : Fighter) (inp : BrawlInput) : Bool :=
  inp.keyK && decide (100 ≤ f.superMeter) && decide (f.state ≠ FState.super)

/-- Lines 719-732: on an honored super, enter `super` (timer 0.8), zero the
meter, spawn a shockwave and a particle burst at the fist, and evaluate the
wide 18-damage hitbox. -/
def stepSuper (p1 p2 : Fighter) (inp : BrawlInput) (parts : List Particle)
    (sws : List Shockwave) : Fighter × Fighter × List Particle × List Shockwave :=
  if superFires p1 inp then
    let p1a := { p1 with state := FState.super, stateTimer := 4/5, superMeter := 0 }
    let sx := p1a.x + (p1a.facing : ℚ) * 40
    let sy := p1a.y - 60
    let sws1 := sws ++ [{ x := sx, y := sy, radius := 10, life := 1/2 }]
    let hit := tryHit p1a p2 18 240 true inp.foamSuper
    (p1a, hit.1, parts ++ inp.superBurst ++ hit.2, sws1)
  else (p1, p2, parts, sws)

/-- Gravity and floor snap (lines 735-742). -/
def stepGravity (f : Fighter) (dt floorY : ℚ) : Fighter :=
  if f.onGround then f
  else
    let vy := f.vy + 800 * dt
    let y := f.y + vy * dt
    if floorY ≤ y then { f with y := floorY, vy := 0, onGround := true }
    else { f with y := y, vy := vy }

/-- `StreetBrawlGame.ai_update` (lines 786-803): face the player, retreat
(or randomly dodge) when closer than 180, idle otherwise, with a random
chance of a backward hop while grounded.  `r1` and `r2` are the frame's two
`random.random()` draws. -/
def aiUpdate (me target : Fighter) (dt r1 r2 : ℚ) : Fighter :=
  let dist := target.x - me.x
  let me1 : Fighter := { me with facing := if 0 < dist then 1 else -1 }
  let me2 : Fighter :=
    if |dist| < 180 then
      let mew : Fighter := { me1 with x := me1.x - (me1.facing : ℚ) * 120 * dt,
                                      state := FState.walk }
      if r1 < 1/50 then
        { mew with state := FState.dodge, stateTimer := 1/5,
                   x := mew.x - (mew.facing : ℚ) * 120 * dt * 6 }
      else mew
    else { me1 with state := FState.idle }
  if r2 < 1/100 ∧ me2.onGround then
    { me2 with onGround := false, vy := -260, x := me2.x - (me2.facing : ℚ) * 80 }
  else me2

/-- State-timer expiry (lines 748-752): while the timer is positive,
decrement it; when it runs out, a fighter in attack, super, hit or dodge
reverts to idle. -/
def stepTimers (f : Fighter) (dt : ℚ) : Fighter :=
  if 0 < f.stateTimer then
    let t := f.stateTimer - dt
    if t ≤ 0 ∧ (f.state = FState.attack ∨ f.state = FState.super ∨
                f.state = FState.hit ∨ f.state = FState.dodge) then
      { f with stateTimer := t, state := FState.idle }
    else { f with stateTimer := t }
  else f

/-- Shockwave expansion and expiry (lines 755-758). -/
def stepShock (sws : List Shockwave) (dt : ℚ) : List Shockwave :=
  (sws.map (fun sw => { sw with radius := sw.radius + 600 * dt, life := sw.life - dt }))
    |>.filter (fun sw => decide (0 < sw.life))

/-- Arena clamp (lines 766-767): `clamp(x, 100, WIDTH - 100)`. -/
def clampX (f : Fighter) : Fighter := { f with x := clamp f.x 100 1180 }

/-- `StreetBrawlGame.finish_game` base bonus (line 807). -/
def brawlBase (s : BrawlState) : ℤ :=
  if s.p2.hp ≤ 0 then 100 else if s.p2.hp < s.p1.hp then 60 else 30

/-- `StreetBrawlGame.finish_game` score (lines 807-809):
`max(0, base + int(p2.hp * -0.5 + p1.hp * 0.8 + timer))`. -/
def brawlScore (s : BrawlState) : ℤ :=
  max 0 (brawlBase s + pyInt ((s.p2.hp : ℚ) * (-(1/2)) + (s.p1.hp : ℚ) * (4/5) + s.timer))

/-- Outcome of one `update` call: finished (with the state at termination
and the final score) or still running. -/
inductive BrawlResult where
  | finished (final : BrawlState) (score : ℤ)
  | running (s : BrawlState)
deriving DecidableEq, Repr

/-- The player fighter after the movement and jump input blocks
(lines 699-713). -/
def p1AfterInput (f : Fighter) (inp : BrawlInput) (dt : ℚ) : Fighter :=
  stepJump (stepMove f inp dt) inp

/-- The attack block applied to the frame's fighters (lines 714-718). -/
def afterAttack (s : BrawlState) (inp : BrawlInput) (dt : ℚ) :
    Fighter × Fighter × List Particle :=
  stepAttack (p1AfterInput s.p1 inp dt) s.p2 inp s.particles

/-- The super block applied after the attack block (lines 719-732). -/
def afterSuper (s : BrawlState) (inp : BrawlInput) (dt : ℚ) :
    Fighter × Fighter × List Particle × List Shockwave :=
  stepSuper (afterAttack s inp dt).1 (afterAttack s inp dt).2.1 inp
    (afterAttack s inp dt).2.2 s.shockwaves

/-- The non-terminating body of `StreetBrawlGame.update` (lines 699-767):
player movement, jump, attack and super inputs, gravity for both fighters,
the AI reaction, state timers, shockwave and particle advancement and the
arena clamp, in source order. -/
def brawlStep (s : BrawlState) (inp : BrawlInput) (dt : ℚ) : BrawlState :=
  let b := afterSuper s inp dt
  let p1 := stepGravity b.1 dt s.floorY
  let p2 := stepGravity b.2.1 dt s.floorY
  let p2 := aiUpdate p2 p1 dt inp.r1 inp.r2
  { s with p1 := clampX (stepTimers p1 dt), p2 := clampX (stepTimers p2 dt),
           particles := advanceP b.2.2.1 dt, shockwaves := stepShock b.2.2.2 dt }

/-- `StreetBrawlGame.update` (lines 693-767): decrement the countdown and
finish if it expired or either fighter's health is gone; otherwise run the
frame body `brawlStep`. -/
def brawlUpdate (s : BrawlState) (inp : BrawlInput) (dt : ℚ) : BrawlResult :=
  let s := { s with timer := s.timer - dt }
  if s.timer ≤ 0 ∨ s.p1.hp ≤ 0 ∨ s.p2.hp ≤ 0 then
    BrawlResult.finished s (brawlScore s)
  else
    BrawlResult.running (brawlStep s inp dt)

/-- One simulated frame: the keys/randoms input and the frame's `dt`. -/
structure BrawlFrame where
  inp : BrawlInput
  dt : ℚ
deriving DecidableEq, Repr

/-- Run a list of frames; once finished, later frames are ignored (the
scene controller replaces the scene). -/
def brawlRun (s : BrawlState) : List BrawlFrame → BrawlResult
  | [] => BrawlResult.running s
  | f :: fs =>
    match brawlUpdate s f.inp f.dt with
    | BrawlResult.finished sf sc => BrawlResult.finished sf sc
    | BrawlResult.running s1 => brawlRun s1 fs

/-- The fighter pair of a result (final state on finish, current state
while running). -/
def brawlStateOf : BrawlResult → BrawlState
  | BrawlResult.finished sf _ => sf
  | BrawlResult.running s => s

/-- Whether a result is a finish with time still on the clock, i.e. a
termination caused by a health bar reaching zero rather than by the
countdown. -/
def isKO : BrawlResult → Bool
  | BrawlResult.finished sf _ => decide (0 < sf.timer)
  | BrawlResult.running _ => false

/-! ## Particle-lifetime properties -/

/-- The remaining life of an updated particle. -/
lemma pUpdate_life (p : Particle) (dt : ℚ) : (pUpdate p dt).life = p.life - dt := rfl

/-- Membership in an advanced collection. -/
lemma mem_advanceP {coll : List Particle} {dt : ℚ} {p : Particle} :
    p ∈ advanceP coll dt ↔ (∃ q ∈ coll, pUpdate q dt = p) ∧ 0 < p.life := by
  simp [advanceP, List.mem_filter, List.mem_map, and_comm]

/-- C8, part 4 helper: positivity of every particle's remaining life is
preserved by any sequence of positive-life spawns and advances. -/
lemma runPOps_pos (ops : List POp) :
    ∀ coll : List Particle, (∀ p, POp.spawn p ∈ ops → 0 < p.life) →
      (∀ p ∈ coll, 0 < p.life) → ∀ p ∈ runPOps coll ops, 0 < p.life := by
  induction ops with
  | nil => intro coll _ hc p hp; exact hc p hp
  | cons op ops ih =>
    intro coll hops hc p hp
    cases op with
    | spawn q =>
      refine ih (coll ++ [q]) (fun r hr => hops r (List.mem_cons_of_mem _ hr)) ?_ p hp
      intro r hr
      rcases List.mem_append.mp hr with h | h
      · exact hc r h
      · rcases List.mem_singleton.mp h with rfl
        exact hops r (List.mem_cons_self _ _)
    | advance dt =>
      refine ih (advanceP coll dt) (fun r hr => hops r (List.mem_cons_of_mem _ hr)) ?_ p hp
      intro r hr
      exact (mem_advanceP.mp hr).2

/-- C8: (i) after any advance pass every remaining particle has positive
remaining life (no particle persists past its lifetime); (ii) an updated
particle of the collection is kept by the pass exactly when its decremented
life is still positive (removal happens exactly when the lifetime has
elapsed, never early); (iii) with a positive time step every particle's
remaining life strictly decreases (elapsed time strictly increases);
(iv) over any sequence of positive-life spawns and advance passes, every
particle in the live collection has positive remaining life. -/
theorem C8_thm :
    (∀ (coll : List Particle) (dt : ℚ), ∀ p ∈ advanceP coll dt, 0 < p.life)
    ∧ (∀ (coll : List Particle) (dt : ℚ) (q : Particle), q ∈ coll →
        (pUpdate q dt ∈ advanceP coll dt ↔ 0 < q.life - dt))
    ∧ (∀ (q : Particle) (dt : ℚ), 0 < dt → (pUpdate q dt).life < q.life)
    ∧ (∀ (ops : List POp), (∀ p, POp.spawn p ∈ ops → 0 < p.life) →
        ∀ p ∈ runPOps [] ops, 0 < p.life) := by
  refine ⟨?_, ?_, ?_, ?_⟩
  · intro coll dt p hp
    exact (mem_advanceP.mp hp).2
  · intro coll dt q hq
    constructor
    · intro h
      simpa [pUpdate_life] using (mem_advanceP.mp h).2
    · intro h
      exact mem_advanceP.mpr ⟨⟨q, hq, rfl⟩, by simpa [pUpdate_life] using h⟩
  · intro q dt hdt
    rw [pUpdate_life]
    linarith
  · intro ops hops p hp
    exact runPOps_pos ops [] hops (by simp) p hp

/-- Witness for C8 at concrete inputs: a particle with 2 seconds of life
survives a 1-second advance with strictly smaller life, and a 54-step
spawn/advance history keeps only positive-life particles. -/
theorem C8_witness :
    (pUpdate { x := 0, y := 0, vx := 3, vy := 4, life := 2, color := (255, 255, 255), size := 3, gravity := 200 } 1
       ∈ advanceP [{ x := 0, y := 0, vx := 3, vy := 4, life := 2, color := (255, 255, 255), size := 3, gravity := 200 }] 1)
    ∧ (pUpdate { x := 0, y := 0, vx := 3, vy := 4, life := 2, color := (255, 255, 255), size := 3, gravity := 200 } 1).life
        < (2 : ℚ)
    ∧ ∀ p ∈ runPOps []
        [POp.spawn { x := 0, y := 0, vx := 3, vy := 4, life := 2, color := (255, 255, 255), size := 3, gravity := 200 },
         POp.advance 1, POp.advance 1], 0 < p.life := by
  refine ⟨?_, ?_, ?_⟩
  · exact (C8_thm.2.1 _ 1 _ (by simp)).mpr (by norm_num)
  · exact C8_thm.2.2.1 _ 1 (by norm_num)
  · refine C8_thm.2.2.2 _ ?_
    intro p hp
    simp only [List.mem_cons, List.not_mem_nil, or_false] at hp
    rcases hp with h | h | h <;> first
      | (cases h; norm_num)
      | exact absurd h (by simp)

/-! ## Score-ledger properties -/

lemma sortDesc_perm (l : List Entry) : List.Perm (sortDesc l) l :=
  List.perm_insertionSort entryGE l

lemma sortDesc_sorted (l : List Entry) : List.Sorted entryGE (sortDesc l) :=
  List.sorted_insertionSort entryGE l

/-- In a descending-sorted board the last entry has the minimal score. -/
lemma getLast_score_le :
    ∀ (l : List Entry), List.Sorted entryGE l → ∀ (hne : l ≠ []),
      ∀ x ∈ l, (l.getLast hne).score ≤ x.score := by
  intro l
  induction l with
  | nil => intro _ hne; exact absurd rfl hne
  | cons a t ih =>
    intro hs hne x hx
    cases t with
    | nil =>
      rcases List.mem_singleton.mp hx with rfl
      exact le_refl _
    | cons b t2 =>
      rw [List.getLast_cons (by simp)]
      rcases List.mem_cons.mp hx with rfl | hx2
      · exact List.rel_of_sorted_cons hs _ (List.getLast_mem _)
      · exact ih hs.of_cons (by simp) x hx2

/-- C5: the qualification check returns `true` exactly when the board has
fewer than 10 entries, or the submitted score strictly exceeds the lowest
listed score, or the board is empty; in particular a board with fewer than
10 entries qualifies any score. -/
theorem C5_thm : ∀ (board : List Entry) (score : ℤ),
    (qualifies board score = true ↔
      board.length < 10 ∨
      (∃ e ∈ board, (∀ x ∈ board, e.score ≤ x.score) ∧ e.score < score) ∨
      board = [])
    ∧ (board.length < 10 → qualifies board score = true) := by
  intro board score
  have hlen : (sortDesc board).length = board.length := (sortDesc_perm board).length_eq
  constructor
  · by_cases hb : board = []
    · subst hb
      simp [qualifies, sortDesc]
    · have hsne : sortDesc board ≠ [] := by
        intro h
        exact hb (List.length_eq_zero.mp (by rw [← hlen, h]; rfl))
      have hlast : (sortDesc board).getLast? = some ((sortDesc board).getLast hsne) :=
        List.getLast?_eq_getLast _ hsne
      have hmem : (sortDesc board).getLast hsne ∈ board :=
        (sortDesc_perm board).mem_iff.mp (List.getLast_mem hsne)
      have hlb : ∀ x ∈ board, ((sortDesc board).getLast hsne).score ≤ x.score := by
        intro x hx
        exact getLast_score_le _ (sortDesc_sorted board) hsne x
          ((sortDesc_perm board).mem_iff.mpr hx)
      rw [qualifies]
      simp only [hlast, hlen, List.isEmpty_iff, Bool.or_eq_true, decide_eq_true_eq]
      constructor
      · rintro ((h | h) | h)
        · exact Or.inl h
        · exact Or.inr (Or.inl ⟨_, hmem, hlb, h⟩)
        · exact absurd h hsne
      · rintro (h | ⟨e, he, helb, hesc⟩ | h)
        · exact Or.inl (Or.inl h)
        · refine Or.inl (Or.inr (lt_of_le_of_lt ?_ hesc))
          exact getLast_score_le _ (sortDesc_sorted board) hsne e
            ((sortDesc_perm board).mem_iff.mpr he)
        · exact absurd h hb
  · intro h
    rw [qualifies]
    simp only [hlen, Bool.or_eq_true, decide_eq_true_eq]
    exact Or.inl (Or.inl h)

/-- A fixed sample entry used by concrete witnesses. -/
def entA : Entry := { name := "A", score := 50 }

/-- Witness for C5: an 8-entry board qualifies a negative score, and on a
full 10-entry board the check agrees with the strictly-exceeds-minimum
condition. -/
theorem C5_witness :
    qualifies (List.replicate 8 entA) (-3) = true
    ∧ (qualifies (List.replicate 10 entA) 50 = true ↔
        (List.replicate 10 entA).length < 10 ∨
        (∃ e ∈ List.replicate 10 entA,
          (∀ x ∈ List.replicate 10 entA, e.score ≤ x.score) ∧ e.score < 50) ∨
        List.replicate 10 entA = []) := by
  constructor
  · exact (C5_thm (List.replicate 8 entA) (-3)).2 (by simp)
  · exact (C5_thm (List.replicate 10 entA) 50).1

lemma mem_insertAfterTies {e x : Entry} :
    ∀ {l : List Entry}, x ∈ insertAfterTies e l ↔ x = e ∨ x ∈ l := by
  intro l
  induction l with
  | nil => simp [insertAfterTies]
  | cons b t ih =>
    rw [insertAfterTies]
    split_ifs with h <;> simp only [List.mem_cons, ih] <;> tauto

lemma orderedInsert_cons_all (b : Entry) (L : List Entry)
    (h : ∀ y ∈ L, entryGE b y) : List.orderedInsert entryGE b L = b :: L := by
  cases L with
  | nil => rfl
  | cons y t => exact List.orderedInsert_of_le entryGE t (h y (List.mem_cons_self y t))

lemma insertAfterTies_of_lt {e : Entry} {l : List Entry}
    (h : ∀ x ∈ l, x.score < e.score) : insertAfterTies e l = e :: l := by
  cases l with
  | nil => rfl
  | cons b t =>
    rw [insertAfterTies, if_neg (not_le.mpr (h b (List.mem_cons_self b t)))]

/-- Stability of `submit`'s sort: appending `e` to an already-sorted board
and stable-sorting places `e` after all entries with score at least
`e.score`, i.e. ties keep insertion order. -/
lemma sortDesc_append_singleton (e : Entry) :
    ∀ (board : List Entry), SortedDesc board →
      sortDesc (board ++ [e]) = insertAfterTies e board := by
  intro board
  induction board with
  | nil => intro _; rfl
  | cons b rest ih =>
    intro hs
    have hrest := ih hs.of_cons
    have hstep : sortDesc ((b :: rest) ++ [e]) =
        List.orderedInsert entryGE b (sortDesc (rest ++ [e])) := rfl
    rw [hstep, hrest]
    by_cases hbe : e.score ≤ b.score
    · rw [insertAfterTies, if_pos hbe]
      apply orderedInsert_cons_all
      intro y hy
      rcases mem_insertAfterTies.mp hy with rfl | hy2
      · exact hbe
      · exact List.rel_of_sorted_cons hs _ hy2
    · rw [insertAfterTies, if_neg hbe]
      have hlt : ∀ x ∈ rest, x.score < e.score := by
        intro x hx
        exact lt_of_le_of_lt (List.rel_of_sorted_cons hs _ hx) (not_le.mp hbe)
      rw [insertAfterTies_of_lt hlt]
      have hbe2 : ¬ entryGE b e := hbe
      have hins : List.orderedInsert entryGE b (e :: rest) =
          if entryGE b e then b :: e :: rest else e :: List.orderedInsert entryGE b rest := rfl
      rw [hins, if_neg hbe2,
        orderedInsert_cons_all b rest (fun y hy => List.rel_of_sorted_cons hs _ hy)]

/-- C6: after every `submit` the board has at most 10 entries and is sorted
descending by score; on a sorted board the new entry lands after all
existing entries with at least its score (ties keep insertion order); and
submitting 11 strictly increasing scores to an empty board leaves exactly
the 10 highest in descending order with the lowest dropped. -/
theorem C6_thm :
    (∀ (board : List Entry) (e : Entry),
        (submit board e).length ≤ 10 ∧ SortedDesc (submit board e))
    ∧ (∀ (board : List Entry) (e : Entry), SortedDesc board →
        submit board e = (insertAfterTies e board).take 10)
    ∧ List.foldl submit ([] : List Entry)
        [{ name := "P1", score := 1 }, { name := "P2", score := 2 },
         { name := "P3", score := 3 }, { name := "P4", score := 4 },
         { name := "P5", score := 5 }, { name := "P6", score := 6 },
         { name := "P7", score := 7 }, { name := "P8", score := 8 },
         { name := "P9", score := 9 }, { name := "P10", score := 10 },
         { name := "P11", score := 11 }] =
      [{ name := "P11", score := 11 }, { name := "P10", score := 10 },
       { name := "P9", score := 9 }, { name := "P8", score := 8 },
       { name := "P7", score := 7 }, { name := "P6", score := 6 },
       { name := "P5", score := 5 }, { name := "P4", score := 4 },
       { name := "P3", score := 3 }, { name := "P2", score := 2 }] := by
  refine ⟨?_, ?_, ?_⟩
  · intro board e
    refine ⟨?_, ?_⟩
    · rw [submit]
      simpa using List.length_take_le 10 (sortDesc (board ++ [e]))
    · exact List.Pairwise.sublist (List.take_sublist 10 _) (sortDesc_sorted (board ++ [e]))
  · intro board e h
    rw [submit, sortDesc_append_singleton e board h]
  · with_unfolding_all decide

/-- Witness for C6: submitting a tied score to a sorted one-entry board
appends it after the existing tie. -/
theorem C6_witness :
    submit [{ name := "A", score := 5 }] { name := "B", score := 5 } =
      [{ name := "A", score := 5 }, { name := "B", score := 5 }] := by
  have h := C6_thm.2.1 [{ name := "A", score := (5 : ℤ) }] { name := "B", score := 5 }
    (by simp [SortedDesc])
  rw [h]
  with_unfolding_all decide

/-! ## Precision Cut properties -/

lemma clamp01_nonneg (v : ℚ) : 0 ≤ clamp v 0 1 := le_max_left 0 _

lemma clamp01_le_one (v : ℚ) : clamp v 0 1 ≤ 1 := max_le (by norm_num) (min_le_left 1 v)

lemma clamp01_le_of_le {v m : ℚ} (h0 : 0 ≤ m) (hv : v ≤ m) : clamp v 0 1 ≤ m :=
  max_le h0 (le_trans (min_le_right 1 v) hv)

/-- The accumulator field of a frame step, by branch. -/
lemma pcStep_meter (s : PCState) (inp : PCInput) (dt : ℚ) :
    (pcStep s inp dt).precisionMeter =
      if inp.cutting then
        if pcInZone inp ∧ pcSteady inp then clamp (s.precisionMeter + (4/5) * dt) 0 1
        else clamp (s.precisionMeter - (3/5) * dt) 0 1
      else clamp (s.precisionMeter - (2/5) * dt) 0 1 := by
  cases hc : inp.cutting <;> by_cases hg : pcInZone inp ∧ pcSteady inp <;>
    simp [pcStep, hc, hg]

/-- The combo field of a frame step, by branch. -/
lemma pcStep_combo (s : PCState) (inp : PCInput) (dt : ℚ) :
    (pcStep s inp dt).combo =
      if inp.cutting then
        if pcInZone inp ∧ pcSteady inp then s.combo + 1
        else max 0 (if s.comboTimer ≤ 0 then s.combo - 1 else s.combo)
      else if s.comboTimer - dt ≤ 0 then max 0 (s.combo - 1) else s.combo := by
  cases hc : inp.cutting <;> by_cases hg : pcInZone inp ∧ pcSteady inp <;>
    simp [pcStep, hc, hg]

/-- The combo grace timer of a frame step, by branch. -/
lemma pcStep_comboTimer (s : PCState) (inp : PCInput) (dt : ℚ) :
    (pcStep s inp dt).comboTimer =
      if inp.cutting then
        if pcInZone inp ∧ pcSteady inp then 1 else s.comboTimer
      else s.comboTimer - dt := by
  cases hc : inp.cutting <;> by_cases hg : pcInZone inp ∧ pcSteady inp <;>
    simp [pcStep, hc, hg]

lemma pcStep_timeLeft (s : PCState) (inp : PCInput) (dt : ℚ) :
    (pcStep s inp dt).timeLeft = s.timeLeft - dt := by
  cases hc : inp.cutting <;> by_cases hg : pcInZone inp ∧ pcSteady inp <;>
    simp [pcStep, hc, hg]

/-- The in-range invariant of the precision engine: accumulator in `[0, 1]`
and non-negative combo. -/
def pcInv (s : PCState) : Prop :=
  0 ≤ s.precisionMeter ∧ s.precisionMeter ≤ 1 ∧ 0 ≤ s.combo

lemma pcStep_inv {s : PCState} (inp : PCInput) (dt : ℚ) (h : pcInv s) :
    pcInv (pcStep s inp dt) := by
  obtain ⟨h0, h1, hc⟩ := h
  refine ⟨?_, ?_, ?_⟩
  · rw [pcStep_meter]
    split_ifs <;> exact clamp01_nonneg _
  · rw [pcStep_meter]
    split_ifs <;> exact clamp01_le_one _
  · rw [pcStep_combo]
    split_ifs <;> omega

lemma pcStep_meter_le {s : PCState} {inp : PCInput} {dt : ℚ}
    (h0 : 0 ≤ s.precisionMeter) (h1 : s.precisionMeter ≤ 1) (hdt : 0 ≤ dt)
    (hbad : ¬(inp.cutting = true ∧ pcInZone inp ∧ pcSteady inp)) :
    (pcStep s inp dt).precisionMeter ≤ s.precisionMeter := by
  rw [pcStep_meter]
  rcases hcut : inp.cutting with _ | _
  · simp only [Bool.false_eq_true, if_false]
    exact clamp01_le_of_le h0 (by linarith)
  · simp only [if_true]
    rw [if_neg (fun hg => hbad ⟨hcut, hg⟩)]
    exact clamp01_le_of_le h0 (by linarith)

lemma pcUpdate_running {s : PCState} {inp : PCInput} {dt : ℚ} {s1 : PCState}
    (h : pcUpdate s inp dt = PCResult.running s1) :
    s1 = pcStep s inp dt ∧ 0 < s.timeLeft - dt := by
  unfold pcUpdate at h
  by_cases hle : s.timeLeft - dt ≤ 0
  · rw [if_pos hle] at h
    cases h
  · rw [if_neg hle] at h
    injection h with h1
    exact ⟨h1.symm, not_le.mp hle⟩

/-- Invariant interpretation of an update outcome. -/
def pcResultInv : PCResult → Prop
  | PCResult.finished _ => True
  | PCResult.running s => pcInv s

lemma pcInit_inv : pcInv pcInit := by
  refine ⟨le_refl 0, ?_, le_refl 0⟩
  norm_num [pcInit]

lemma pcRun_inv (frames : List (PCInput × ℚ)) :
    ∀ s : PCState, pcInv s → pcResultInv (pcRun s frames) := by
  induction frames with
  | nil => intro s hs; exact hs
  | cons f fs ih =>
    intro s hs
    rw [pcRun]
    cases hup : pcUpdate s f.1 f.2 with
    | finished sc => exact trivial
    | running s1 =>
      have h := pcUpdate_running hup
      exact ih s1 (h.1 ▸ pcStep_inv f.1 f.2 hs)

/-- C9: a running update preserves the `[0, 1]` accumulator range and combo
non-negativity; the accumulator strictly increases on a frame only when the
trigger is held, the position is in the sweet zone and the movement is
steady; and after any sequence of updates from the initial state the
invariant holds. -/
theorem C9_thm :
    (∀ (s : PCState) (inp : PCInput) (dt : ℚ) (s1 : PCState), 0 ≤ dt →
        pcUpdate s inp dt = PCResult.running s1 →
        (pcInv s → pcInv s1)
        ∧ (pcInv s → s.precisionMeter < s1.precisionMeter →
            inp.cutting = true ∧ pcInZone inp ∧ pcSteady inp))
    ∧ (∀ frames : List (PCInput × ℚ), pcResultInv (pcRun pcInit frames)) := by
  constructor
  · intro s inp dt s1 hdt hup
    obtain ⟨rfl, -⟩ := pcUpdate_running hup
    refine ⟨fun h => pcStep_inv inp dt h, fun h hlt => ?_⟩
    by_contra hbad
    exact absurd hlt (not_lt.mpr (pcStep_meter_le h.1 h.2.1 hdt hbad))
  · intro frames
    exact pcRun_inv frames pcInit pcInit_inv

/-- Witness for C9 at a concrete good frame from the initial state. -/
theorem C9_witness :
    pcInv (pcStep pcInit goodInput (1/10))
    ∧ (goodInput.cutting = true ∧ pcInZone goodInput ∧ pcSteady goodInput) := by
  have h := C9_thm.1 pcInit goodInput (1/10) (pcStep pcInit goodInput (1/10))
    (by norm_num) (by with_unfolding_all decide)
  refine ⟨h.1 pcInit_inv, ?_⟩
  refine h.2 pcInit_inv ?_
  with_unfolding_all decide

lemma goodInput_cond : goodInput.cutting = true ∧ pcInZone goodInput ∧ pcSteady goodInput := by
  refine ⟨rfl, ⟨?_, ?_⟩, ?_⟩ <;> decide

lemma clamp_min_add {a d : ℚ} (ha : 0 ≤ a) (hd : 0 ≤ d) :
    clamp (min 1 a + d) 0 1 = min 1 (a + d) := by
  rcases le_total 1 a with h | h
  · rw [min_eq_left h]
    unfold clamp
    rw [min_eq_left (by linarith), max_eq_right (by norm_num),
      min_eq_left (by linarith)]
  · rw [min_eq_right h]
    unfold clamp
    exact max_eq_right (le_min (by norm_num) (by positivity))

lemma goodIter_timeLeft (dt : ℚ) : ∀ n : ℕ, (goodIter n dt).timeLeft = 40 - n * dt := by
  intro n
  induction n with
  | zero => simp [goodIter, pcInit]
  | succ n ih =>
    rw [goodIter, pcStep_timeLeft, ih]
    push_cast
    ring

lemma goodIter_meter (dt : ℚ) (hdt : 0 ≤ dt) :
    ∀ n : ℕ, (goodIter n dt).precisionMeter = min 1 ((4/5) * n * dt) := by
  intro n
  induction n with
  | zero =>
    simp only [goodIter, Nat.cast_zero, mul_zero, zero_mul]
    rw [min_eq_right (by norm_num)]
    rfl
  | succ n ih =>
    rw [goodIter, pcStep_meter, if_pos goodInput_cond.1, if_pos goodInput_cond.2, ih]
    rw [mul_assoc, mul_assoc, clamp_min_add (by positivity) (by positivity), ← mul_add]
    congr 1
    push_cast
    ring

/-- C7: with the "in-zone and active" condition held on every frame at the
fixed accumulate rate 0.8/sec, the accumulator after `n` frames of length
`dt` equals `min 1 (0.8 * n * dt)` — so it reaches 1.0 as soon as
`n * dt ≥ 1.25` and stays there; every such frame inside the 40-second
budget is a running update; and once the clock runs out the update hands
over exactly `int(cumulative * 10 + precision * 100)` as the final score. -/
theorem C7_thm :
    (∀ (n : ℕ) (dt : ℚ), 0 ≤ dt →
        (goodIter n dt).precisionMeter = min 1 ((4/5) * n * dt)
        ∧ (5/4 ≤ (n : ℚ) * dt → (goodIter n dt).precisionMeter = 1)
        ∧ (∀ k : ℕ, k < n → (n : ℚ) * dt < 40 →
            pcUpdate (goodIter k dt) goodInput dt = PCResult.running (goodIter (k+1) dt)))
    ∧ (∀ (s : PCState) (inp : PCInput) (dt : ℚ), s.timeLeft - dt ≤ 0 →
        pcUpdate s inp dt =
          PCResult.finished (pyInt (s.precisionScore * 10 + s.precisionMeter * 100))) := by
  constructor
  · intro n dt hdt
    refine ⟨goodIter_meter dt hdt n, ?_, ?_⟩
    · intro h
      rw [goodIter_meter dt hdt n, mul_assoc]
      exact min_eq_left (by linarith)
    · intro k hk hn
      have hkd : (k : ℚ) * dt + dt ≤ (n : ℚ) * dt := by
        have hk1 : ((k : ℚ) + 1) ≤ (n : ℚ) := by exact_mod_cast hk
        calc (k : ℚ) * dt + dt = ((k : ℚ) + 1) * dt := by ring
        _ ≤ (n : ℚ) * dt := mul_le_mul_of_nonneg_right hk1 hdt
      rw [pcUpdate, if_neg (by rw [goodIter_timeLeft]; linarith)]
      rfl
  · intro s inp dt h
    rw [pcUpdate, if_pos h]
    rfl

/-- Witness for C7: three half-second good frames reach accumulator 1.0
inside the budget, the first frame is a running update, and the time-out
frame hands over the deterministic score. -/
theorem C7_witness :
    (goodIter 3 (1/2)).precisionMeter = 1
    ∧ pcUpdate (goodIter 0 (1/2)) goodInput (1/2) = PCResult.running (goodIter 1 (1/2))
    ∧ pcUpdate (goodIter 3 (1/2)) goodInput 40 =
        PCResult.finished (pyInt ((goodIter 3 (1/2)).precisionScore * 10 +
          (goodIter 3 (1/2)).precisionMeter * 100)) := by
  refine ⟨?_, ?_, ?_⟩
  · exact (C7_thm.1 3 (1/2) (by norm_num)).2.1 (by norm_num)
  · exact (C7_thm.1 3 (1/2) (by norm_num)).2.2 0 (by norm_num) (by norm_num)
  · refine C7_thm.2 (goodIter 3 (1/2)) goodInput 40 ?_
    with_unfolding_all decide

/-- C4 amended: when the trigger is not held, the grace timer is decremented
and the combo decays by one per frame once it has elapsed; but when the
trigger is held with the position out of zone (or unsteady), the combo
decays only if the grace timer had already elapsed, and the grace timer is
not decremented on such frames — so the combo can stay constant through
arbitrarily many consecutive such frames. -/
theorem C4_amended_thm :
    ∀ (s : PCState) (inp : PCInput) (dt : ℚ) (s1 : PCState),
      pcUpdate s inp dt = PCResult.running s1 →
      (inp.cutting = false →
        s1.comboTimer = s.comboTimer - dt
        ∧ (s.comboTimer - dt ≤ 0 → s1.combo = max 0 (s.combo - 1))
        ∧ (0 < s.comboTimer - dt → s1.combo = s.combo))
      ∧ (inp.cutting = true → ¬(pcInZone inp ∧ pcSteady inp) →
        (s.comboTimer ≤ 0 → s1.combo = max 0 (s.combo - 1))
        ∧ (0 < s.comboTimer → s1.combo = max 0 s.combo ∧ s1.comboTimer = s.comboTimer)) := by
  intro s inp dt s1 hup
  obtain ⟨rfl, -⟩ := pcUpdate_running hup
  constructor
  · intro hcut
    refine ⟨?_, ?_, ?_⟩
    · rw [pcStep_comboTimer, hcut, if_neg (by simp)]
    · intro h
      rw [pcStep_combo, hcut, if_neg (by simp), if_pos h]
    · intro h
      rw [pcStep_combo, hcut, if_neg (by simp), if_neg (not_le.mpr h)]
  · intro hcut hbad
    refine ⟨?_, ?_⟩
    · intro h
      rw [pcStep_combo, hcut, if_pos rfl, if_neg hbad, if_pos h]
    · intro h
      constructor
      · rw [pcStep_combo, hcut, if_pos rfl, if_neg hbad, if_neg (not_le.mpr h)]
      · rw [pcStep_comboTimer, hcut, if_pos rfl, if_neg hbad]

/-- C4 counterexample: one good frame sets combo to 1 with a full grace
timer; fifty consecutive cutting-but-out-of-zone frames (5 seconds) then
leave the combo at 1 — it never decays, because the grace timer is not
decremented while the trigger is held. -/
theorem C4_counterexample :
    pcComboOf (pcRun pcInit [(goodInput, 1/10)]) = some 1
    ∧ pcComboOf (pcRun pcInit
        ((goodInput, 1/10) :: List.replicate 50 (badCutInput, 1/10))) = some 1 := by
  constructor
  · with_unfolding_all decide
  · set_option maxRecDepth 40000 in with_unfolding_all decide

/-- Witness for C4's amended claim at a concrete frame: after a good frame
(combo 1, grace timer 1), a cutting-but-out-of-zone frame leaves both the
combo and the grace timer unchanged. -/
theorem C4_witness :
    (pcStep (pcStep pcInit goodInput (1/10)) badCutInput (1/10)).combo =
      max 0 (pcStep pcInit goodInput (1/10)).combo
    ∧ (pcStep (pcStep pcInit goodInput (1/10)) badCutInput (1/10)).comboTimer =
      (pcStep pcInit goodInput (1/10)).comboTimer := by
  have h := (C4_amended_thm (pcStep pcInit goodInput (1/10)) badCutInput (1/10)
      (pcStep (pcStep pcInit goodInput (1/10)) badCutInput (1/10))
      (by with_unfolding_all decide)).2 rfl (by decide)
  exact h.2 (by with_unfolding_all decide)

/-! ## Street Brawl properties -/

lemma stepMove_hp (f : Fighter) (inp : BrawlInput) (dt : ℚ) :
    (stepMove f inp dt).hp = f.hp := by
  simp only [stepMove]; split_ifs <;> rfl

lemma stepMove_superMeter (f : Fighter) (inp : BrawlInput) (dt : ℚ) :
    (stepMove f inp dt).superMeter = f.superMeter := by
  simp only [stepMove]; split_ifs <;> rfl

/-- The state after the movement block: `walk` while moving, otherwise
`idle` unless in attack, super or hit-stun. -/
lemma stepMove_state (f : Fighter) (inp : BrawlInput) (dt : ℚ) :
    (stepMove f inp dt).state =
      if moveVal inp ≠ 0 then FState.walk
      else if f.state ≠ FState.attack ∧ f.state ≠ FState.super ∧ f.state ≠ FState.hit then
        FState.idle
      else f.state := by
  simp only [stepMove]; split_ifs <;> rfl

lemma stepJump_hp (f : Fighter) (inp : BrawlInput) : (stepJump f inp).hp = f.hp := by
  simp only [stepJump]; split_ifs <;> rfl

lemma stepJump_superMeter (f : Fighter) (inp : BrawlInput) :
    (stepJump f inp).superMeter = f.superMeter := by
  simp only [stepJump]; split_ifs <;> rfl

lemma stepJump_state (f : Fighter) (inp : BrawlInput) : (stepJump f inp).state = f.state := by
  simp only [stepJump]; split_ifs <;> rfl

lemma p1AfterInput_hp (f : Fighter) (inp : BrawlInput) (dt : ℚ) :
    (p1AfterInput f inp dt).hp = f.hp := by
  unfold p1AfterInput; rw [stepJump_hp, stepMove_hp]

lemma p1AfterInput_superMeter (f : Fighter) (inp : BrawlInput) (dt : ℚ) :
    (p1AfterInput f inp dt).superMeter = f.superMeter := by
  unfold p1AfterInput; rw [stepJump_superMeter, stepMove_superMeter]

lemma tryHit_superMeter (a b : Fighter) (dmg : ℤ) (impulse : ℚ) (wide : Bool)
    (foam : List Particle) : (tryHit a b dmg impulse wide foam).1.superMeter = b.superMeter := by
  simp only [tryHit]; split_ifs <;> rfl

lemma tryHit_hp_nonneg (a b : Fighter) (dmg : ℤ) (impulse : ℚ) (wide : Bool)
    (foam : List Particle) (h : 0 ≤ b.hp) : 0 ≤ (tryHit a b dmg impulse wide foam).1.hp := by
  simp only [tryHit]
  split_ifs <;> first
    | exact le_max_left 0 _
    | exact h

lemma stepAttack_p1_hp (p1 p2 : Fighter) (inp : BrawlInput) (parts : List Particle) :
    (stepAttack p1 p2 inp parts).1.hp = p1.hp := by
  simp only [stepAttack]; split_ifs <;> rfl

/-- The player's state after the attack block. -/
lemma stepAttack_p1_state (p1 p2 : Fighter) (inp : BrawlInput) (parts : List Particle) :
    (stepAttack p1 p2 inp parts).1.state =
      if attackFires p1 inp then FState.attack else p1.state := by
  simp only [stepAttack]; split_ifs <;> rfl

/-- The attacker's meter after the attack block: gained on every honored
attack input, with no reference to whether the hitbox collided. -/
lemma stepAttack_p1_superMeter (p1 p2 : Fighter) (inp : BrawlInput) (parts : List Particle) :
    (stepAttack p1 p2 inp parts).1.superMeter =
      if attackFires p1 inp then clamp (p1.superMeter + 8) 0 100 else p1.superMeter := by
  simp only [stepAttack]; split_ifs <;> rfl

lemma stepAttack_p2_superMeter (p1 p2 : Fighter) (inp : BrawlInput) (parts : List Particle) :
    (stepAttack p1 p2 inp parts).2.1.superMeter = p2.superMeter := by
  simp only [stepAttack]
  split_ifs
  · exact tryHit_superMeter _ _ _ _ _ _
  · rfl

lemma stepAttack_p2_hp_nonneg (p1 p2 : Fighter) (inp : BrawlInput) (parts : List Particle)
    (h : 0 ≤ p2.hp) : 0 ≤ (stepAttack p1 p2 inp parts).2.1.hp := by
  simp only [stepAttack]
  split_ifs
  · exact tryHit_hp_nonneg _ _ _ _ _ _ h
  · exact h

lemma stepSuper_p1_hp (p1 p2 : Fighter) (inp : BrawlInput) (parts : List Particle)
    (sws : List Shockwave) : (stepSuper p1 p2 inp parts sws).1.hp = p1.hp := by
  simp only [stepSuper]; split_ifs <;> rfl

lemma stepSuper_p1_state (p1 p2 : Fighter) (inp : BrawlInput) (parts : List Particle)
    (sws : List Shockwave) :
    (stepSuper p1 p2 inp parts sws).1.state =
      if superFires p1 inp then FState.super else p1.state := by
  simp only [stepSuper]; split_ifs <;> rfl

lemma stepSuper_p1_superMeter (p1 p2 : Fighter) (inp : BrawlInput) (parts : List Particle)
    (sws : List Shockwave) :
    (stepSuper p1 p2 inp parts sws).1.superMeter =
      if superFires p1 inp then 0 else p1.superMeter := by
  simp only [stepSuper]; split_ifs <;> rfl

lemma stepSuper_p2_superMeter (p1 p2 : Fighter) (inp : BrawlInput) (parts : List Particle)
    (sws : List Shockwave) : (stepSuper p1 p2 inp parts sws).2.1.superMeter = p2.superMeter := by
  simp only [stepSuper]
  split_ifs
  · exact tryHit_superMeter _ _ _ _ _ _
  · rfl

lemma stepSuper_p2_hp_nonneg (p1 p2 : Fighter) (inp : BrawlInput) (parts : List Particle)
    (sws : List Shockwave) (h : 0 ≤ p2.hp) : 0 ≤ (stepSuper p1 p2 inp parts sws).2.1.hp := by
  simp only [stepSuper]
  split_ifs
  · exact tryHit_hp_nonneg _ _ _ _ _ _ h
  · exact h

lemma stepGravity_hp (f : Fighter) (dt floorY : ℚ) : (stepGravity f dt floorY).hp = f.hp := by
  simp only [stepGravity]; split_ifs <;> rfl

lemma stepGravity_superMeter (f : Fighter) (dt floorY : ℚ) :
    (stepGravity f dt floorY).superMeter = f.superMeter := by
  simp only [stepGravity]; split_ifs <;> rfl

lemma stepGravity_state (f : Fighter) (dt floorY : ℚ) :
    (stepGravity f dt floorY).state = f.state := by
  simp only [stepGravity]; split_ifs <;> rfl

lemma aiUpdate_hp (me target : Fighter) (dt r1 r2 : ℚ) :
    (aiUpdate me target dt r1 r2).hp = me.hp := by
  simp only [aiUpdate]; split_ifs <;> rfl

lemma aiUpdate_superMeter (me target : Fighter) (dt r1 r2 : ℚ) :
    (aiUpdate me target dt r1 r2).superMeter = me.superMeter := by
  simp only [aiUpdate]; split_ifs <;> rfl

lemma stepTimers_hp (f : Fighter) (dt : ℚ) : (stepTimers f dt).hp = f.hp := by
  simp only [stepTimers]; split_ifs <;> rfl

lemma stepTimers_superMeter (f : Fighter) (dt : ℚ) :
    (stepTimers f dt).superMeter = f.superMeter := by
  simp only [stepTimers]; split_ifs <;> rfl

/-- Timer expiry can only move a state to `idle`, never into another
non-idle state. -/
lemma stepTimers_state_eq {f : Fighter} {dt : ℚ} {st : FState} (hne : st ≠ FState.idle)
    (h : (stepTimers f dt).state = st) : f.state = st := by
  simp only [stepTimers] at h
  split_ifs at h
  · exact absurd h.symm hne
  · exact h
  · exact h

lemma clampX_hp (f : Fighter) : (clampX f).hp = f.hp := rfl

lemma clampX_superMeter (f : Fighter) : (clampX f).superMeter = f.superMeter := rfl

lemma clampX_state (f : Fighter) : (clampX f).state = f.state := rfl

/-- The player fighter of a frame body, as its processing chain. -/
lemma brawlStep_p1 (s : BrawlState) (inp : BrawlInput) (dt : ℚ) :
    (brawlStep s inp dt).p1 =
      clampX (stepTimers (stepGravity (afterSuper s inp dt).1 dt s.floorY) dt) := rfl

/-- The AI fighter of a frame body, as its processing chain. -/
lemma brawlStep_p2 (s : BrawlState) (inp : BrawlInput) (dt : ℚ) :
    (brawlStep s inp dt).p2 =
      clampX (stepTimers
        (aiUpdate (stepGravity (afterSuper s inp dt).2.1 dt s.floorY)
          (stepGravity (afterSuper s inp dt).1 dt s.floorY) dt inp.r1 inp.r2) dt) := rfl

/-- The match invariant behind C10: the player's health never changes from
100, the AI fighter's super meter never leaves 0, and the AI fighter's
health never goes negative. -/
def brawlInv (s : BrawlState) : Prop :=
  s.p1.hp = 100 ∧ s.p2.superMeter = 0 ∧ 0 ≤ s.p2.hp

lemma afterAttack_p1_hp (s : BrawlState) (inp : BrawlInput) (dt : ℚ) :
    (afterAttack s inp dt).1.hp = s.p1.hp := by
  unfold afterAttack
  rw [stepAttack_p1_hp, p1AfterInput_hp]

lemma brawlStep_inv {s : BrawlState} (inp : BrawlInput) (dt : ℚ) (h : brawlInv s) :
    brawlInv (brawlStep s inp dt) := by
  obtain ⟨h1, h2, h3⟩ := h
  refine ⟨?_, ?_, ?_⟩
  · rw [brawlStep_p1, clampX_hp, stepTimers_hp, stepGravity_hp]
    unfold afterSuper
    rw [stepSuper_p1_hp, afterAttack_p1_hp, h1]
  · rw [brawlStep_p2, clampX_superMeter, stepTimers_superMeter, aiUpdate_superMeter,
      stepGravity_superMeter]
    unfold afterSuper
    rw [stepSuper_p2_superMeter]
    unfold afterAttack
    rw [stepAttack_p2_superMeter, h2]
  · rw [brawlStep_p2, clampX_hp, stepTimers_hp, aiUpdate_hp, stepGravity_hp]
    unfold afterSuper
    apply stepSuper_p2_hp_nonneg
    unfold afterAttack
    exact stepAttack_p2_hp_nonneg _ _ _ _ h3

lemma brawlUpdate_inv {s : BrawlState} (inp : BrawlInput) (dt : ℚ) (h : brawlInv s) :
    (∀ s1, brawlUpdate s inp dt = BrawlResult.running s1 → brawlInv s1)
    ∧ (∀ sf sc, brawlUpdate s inp dt = BrawlResult.finished sf sc →
        brawlInv sf ∧ (0 < sf.timer → sf.p2.hp = 0)) := by
  obtain ⟨h1, h2, h3⟩ := h
  have hinv : brawlInv { s with timer := s.timer - dt } := ⟨h1, h2, h3⟩
  unfold brawlUpdate
  by_cases hend : s.timer - dt ≤ 0 ∨ s.p1.hp ≤ 0 ∨ s.p2.hp ≤ 0
  · rw [if_pos hend]
    constructor
    · intro s1 hu
      cases hu
    · intro sf sc hu
      injection hu with hu1 hu2
      subst hu1
      refine ⟨hinv, fun ht => ?_⟩
      rcases hend with he | he | he
      · exact absurd ht (not_lt.mpr he)
      · rw [h1] at he
        norm_num at he
      · exact le_antisymm he h3
  · rw [if_neg hend]
    constructor
    · intro s1 hu
      injection hu with hu1
      subst hu1
      exact brawlStep_inv inp dt hinv
    · intro sf sc hu
      cases hu

lemma brawlRun_inv (frames : List BrawlFrame) :
    ∀ s : BrawlState, brawlInv s →
      brawlInv (brawlStateOf (brawlRun s frames))
      ∧ (isKO (brawlRun s frames) = true →
          (brawlStateOf (brawlRun s frames)).p2.hp = 0) := by
  induction frames with
  | nil =>
    intro s hs
    exact ⟨hs, fun h => absurd h (by simp [brawlRun, isKO])⟩
  | cons f fs ih =>
    intro s hs
    rw [brawlRun]
    cases hup : brawlUpdate s f.inp f.dt with
    | finished sf sc =>
      have hf := (brawlUpdate_inv f.inp f.dt hs).2 sf sc hup
      refine ⟨hf.1, fun hko => hf.2 ?_⟩
      simpa [isKO] using hko
    | running s1 =>
      exact ih s1 ((brawlUpdate_inv f.inp f.dt hs).1 s1 hup)

lemma brawlInit_inv : brawlInv brawlInit := by
  refine ⟨rfl, rfl, ?_⟩
  norm_num [brawlInit]

/-- C10: in every Street Brawl match from the initial state — whatever the
key, timing and random inputs — the player's health stays at 100, the AI
fighter's super meter stays at 0, the AI fighter's health never goes
negative, and a termination with time still on the clock (a knockout) can
only happen with the AI fighter's health at exactly 0. -/
theorem C10_thm : ∀ frames : List BrawlFrame,
    (brawlStateOf (brawlRun brawlInit frames)).p1.hp = 100
    ∧ (brawlStateOf (brawlRun brawlInit frames)).p2.superMeter = 0
    ∧ 0 ≤ (brawlStateOf (brawlRun brawlInit frames)).p2.hp
    ∧ (isKO (brawlRun brawlInit frames) = true →
        (brawlStateOf (brawlRun brawlInit frames)).p2.hp = 0) := by
  intro frames
  have h := brawlRun_inv frames brawlInit brawlInit_inv
  exact ⟨h.1.1, h.1.2.1, h.1.2.2, h.2⟩

lemma brawlUpdate_running {s : BrawlState} {inp : BrawlInput} {dt : ℚ} {s1 : BrawlState}
    (h : brawlUpdate s inp dt = BrawlResult.running s1) :
    s1 = brawlStep { s with timer := s.timer - dt } inp dt := by
  unfold brawlUpdate at h
  by_cases hend : s.timer - dt ≤ 0 ∨ s.p1.hp ≤ 0 ∨ s.p2.hp ≤ 0
  · rw [if_pos hend] at h
    cases h
  · rw [if_neg hend] at h
    injection h with h1
    exact h1.symm

lemma attackFires_iff {f : Fighter} {inp : BrawlInput} :
    attackFires f inp = true ↔
      inp.keyJ = true ∧ f.state ≠ FState.attack ∧ f.state ≠ FState.super := by
  simp [attackFires]

lemma superFires_iff {f : Fighter} {inp : BrawlInput} :
    superFires f inp = true ↔
      inp.keyK = true ∧ 100 ≤ f.superMeter ∧ f.state ≠ FState.super := by
  simp [superFires, and_assoc]

/-- C1 amended: a transition of the player fighter into `attack` during a
frame happens only when the attack key is held and, at the moment of the
line-714 check, the state is neither `attack` nor `super` — since movement
input first overwrites the state with `walk` and hit-stun is not excluded,
this is equivalent at frame granularity to: the attack key is held and
either a movement key is held or the frame did not start in `super`.  A
transition into `super` happens only when the super key is held and the
meter was at least 92 at frame start (full, up to the 8 points a
simultaneous basic attack adds). -/
theorem C1_amended_thm :
    ∀ (s : BrawlState) (inp : BrawlInput) (dt : ℚ) (s1 : BrawlState),
      brawlUpdate s inp dt = BrawlResult.running s1 →
      (s.p1.state ≠ FState.attack → s1.p1.state = FState.attack →
        inp.keyJ = true ∧ (moveVal inp ≠ 0 ∨ s.p1.state ≠ FState.super))
      ∧ (s.p1.state ≠ FState.super → s1.p1.state = FState.super →
        inp.keyK = true ∧ 92 ≤ s.p1.superMeter) := by
  intro s inp dt s1 hup
  obtain rfl := brawlUpdate_running hup
  set s' : BrawlState := { s with timer := s.timer - dt } with hs'
  have hp1 : s'.p1 = s.p1 := rfl
  constructor
  · intro hne h
    rw [brawlStep_p1, clampX_state] at h
    have h2 := stepTimers_state_eq (by decide) h
    rw [stepGravity_state] at h2
    unfold afterSuper at h2
    rw [stepSuper_p1_state] at h2
    by_cases hsf : superFires (afterAttack s' inp dt).1 inp
    · rw [if_pos hsf] at h2
      cases h2
    · rw [if_neg hsf] at h2
      unfold afterAttack at h2
      rw [stepAttack_p1_state] at h2
      by_cases haf : attackFires (p1AfterInput s'.p1 inp dt) inp
      · obtain ⟨hj, hsta, hsts⟩ := attackFires_iff.mp haf
        refine ⟨hj, ?_⟩
        by_cases hm : moveVal inp = 0
        · refine Or.inr (fun hsuper => ?_)
          apply hsts
          unfold p1AfterInput
          rw [stepJump_state, stepMove_state, if_neg (by simpa using hm), hp1, hsuper]
          rw [if_neg (by simp)]
        · exact Or.inl hm
      · rw [if_neg haf] at h2
        unfold p1AfterInput at h2
        rw [stepJump_state, stepMove_state] at h2
        by_cases hm : moveVal inp ≠ 0
        · rw [if_pos hm] at h2
          cases h2
        · rw [if_neg hm] at h2
          by_cases hcond : s'.p1.state ≠ FState.attack ∧ s'.p1.state ≠ FState.super ∧
              s'.p1.state ≠ FState.hit
          · rw [if_pos hcond] at h2
            cases h2
          · rw [if_neg hcond] at h2
            exact absurd (hp1 ▸ h2) hne
  · intro hne h
    rw [brawlStep_p1, clampX_state] at h
    have h2 := stepTimers_state_eq (by decide) h
    rw [stepGravity_state] at h2
    unfold afterSuper at h2
    rw [stepSuper_p1_state] at h2
    by_cases hsf : superFires (afterAttack s' inp dt).1 inp
    · obtain ⟨hk, hmeter, -⟩ := superFires_iff.mp hsf
      refine ⟨hk, ?_⟩
      unfold afterAttack at hmeter
      rw [stepAttack_p1_superMeter, p1AfterInput_superMeter, hp1] at hmeter
      by_cases haf : attackFires (p1AfterInput s'.p1 inp dt) inp
      · rw [if_pos haf] at hmeter
        have hx : (100 : ℚ) ≤ min 100 (s.p1.superMeter + 8) := by
          rcases le_max_iff.mp hmeter with hbad | hok
          · norm_num at hbad
          · exact hok
        have := (le_min_iff.mp hx).2
        linarith
      · rw [if_neg haf] at hmeter
        linarith
    · rw [if_neg hsf] at h2
      unfold afterAttack at h2
      rw [stepAttack_p1_state] at h2
      by_cases haf : attackFires (p1AfterInput s'.p1 inp dt) inp
      · rw [if_pos haf] at h2
        cases h2
      · rw [if_neg haf] at h2
        unfold p1AfterInput at h2
        rw [stepJump_state, stepMove_state] at h2
        by_cases hm : moveVal inp ≠ 0
        · rw [if_pos hm] at h2
          cases h2
        · rw [if_neg hm] at h2
          by_cases hcond : s'.p1.state ≠ FState.attack ∧ s'.p1.state ≠ FState.super ∧
              s'.p1.state ≠ FState.hit
          · rw [if_pos hcond] at h2
            cases h2
          · rw [if_neg hcond] at h2
            exact absurd (hp1 ▸ h2) hne

/-- C2 amended: a running frame never changes the AI fighter's super meter,
and whenever the basic-attack branch fires without a super in the same
frame, the attacker's meter becomes `clamp(meter + 8, 0, 100)` with no
reference to whether the hitbox collided with the opponent. -/
theorem C2_amended_thm :
    ∀ (s : BrawlState) (inp : BrawlInput) (dt : ℚ) (s1 : BrawlState),
      brawlUpdate s inp dt = BrawlResult.running s1 →
      s1.p2.superMeter = s.p2.superMeter
      ∧ (attackFires (p1AfterInput s.p1 inp dt) inp = true →
         superFires (afterAttack { s with timer := s.timer - dt } inp dt).1 inp = false →
         s1.p1.superMeter = clamp (s.p1.superMeter + 8) 0 100) := by
  intro s inp dt s1 hup
  obtain rfl := brawlUpdate_running hup
  set s' : BrawlState := { s with timer := s.timer - dt } with hs'
  constructor
  · rw [brawlStep_p2, clampX_superMeter, stepTimers_superMeter, aiUpdate_superMeter,
      stepGravity_superMeter]
    unfold afterSuper
    rw [stepSuper_p2_superMeter]
    unfold afterAttack
    rw [stepAttack_p2_superMeter]
  · intro haf hsf
    rw [brawlStep_p1, clampX_superMeter, stepTimers_superMeter, stepGravity_superMeter]
    unfold afterSuper
    rw [stepSuper_p1_superMeter, if_neg (by simp [hsf])]
    unfold afterAttack
    rw [stepAttack_p1_superMeter, if_pos (by exact haf), p1AfterInput_superMeter]

/-! ## Concrete Street Brawl runs

The per-frame random draws are fixed at 1 (no AI dodge or hop) and the
randomly-parametrised particle bursts at `[]`; neither affects health,
meters or fighter states beyond what the theorems mention. -/

/-- A frame with no keys held. -/
def inpNone : BrawlInput :=
  { keyA := false, keyD := false, keyW := false, keyJ := false, keyK := false }

/-- Only the punch key held. -/
def inpJ : BrawlInput := { inpNone with keyJ := true }

/-- Only the super key held. -/
def inpK : BrawlInput := { inpNone with keyK := true }

/-- Only the left movement key held. -/
def inpA : BrawlInput := { inpNone with keyA := true }

/-- Only the right movement key held. -/
def inpD : BrawlInput := { inpNone with keyD := true }

/-- Left movement and punch held together. -/
def inpAJ : BrawlInput := { inpNone with keyA := true, keyJ := true }

/-- Right movement and punch held together. -/
def inpDJ : BrawlInput := { inpNone with keyD := true, keyJ := true }

/-- Thirteen whiffed punches (8 meter each, clamped to 100) followed by a
super: ends with the player in the `super` state at a reachable game
state. -/
def c1PreFrames : List BrawlFrame :=
  List.replicate 13 { inp := inpJ, dt := 3/10 } ++ [{ inp := inpK, dt := 3/10 }]

/-- The same run followed by one frame holding left-movement and punch:
movement resets the `super` state to `walk`, so the punch is honored. -/
def c1AllFrames : List BrawlFrame :=
  c1PreFrames ++ [{ inp := inpAJ, dt := 1/5 }]

/-- Scenario-B run: walk right for one second, walk-and-punch (the punch
lands on the full-health AI fighter for 6 damage), then one long idle frame
that runs the countdown out. -/
def c3Frames : List BrawlFrame :=
  [{ inp := inpD, dt := 1 }, { inp := inpDJ, dt := 1 }, { inp := inpNone, dt := 97 }]

/-- A knockout run: pin the player at the right wall, approach the AI
fighter from its right until it is pinned at the left wall, land seventeen
6-damage punches (health 100 to 0), then one more frame ends the match by
knockout with 80+ seconds still on the clock. -/
def koFrames : List BrawlFrame :=
  List.replicate 5 { inp := inpD, dt := 1 } ++
  List.replicate 14 { inp := inpA, dt := 1/4 } ++ [{ inp := inpNone, dt := 1/4 }] ++
  List.replicate 3 { inp := inpA, dt := 1/4 } ++ [{ inp := inpNone, dt := 1/4 }] ++
  List.replicate 3 { inp := inpA, dt := 1/4 } ++ [{ inp := inpNone, dt := 1/4 }] ++
  List.replicate 3 { inp := inpA, dt := 1/4 } ++ [{ inp := inpNone, dt := 1/4 }] ++
  List.replicate 3 { inp := inpA, dt := 1/4 } ++
  List.replicate 17 { inp := inpJ, dt := 1/4 } ++ [{ inp := inpNone, dt := 1/4 }]

set_option maxRecDepth 400000 in
/-- C1 counterexample: a reachable state in which the player is in `super`,
yet the very next frame — left movement plus punch — transitions it into
`attack`, contradicting the claim that a fighter already in `super` (or
hit-stun) can never initiate an attack that frame. -/
theorem C1_counterexample :
    (brawlStateOf (brawlRun brawlInit c1PreFrames)).p1.state = FState.super
    ∧ (brawlStateOf (brawlRun brawlInit c1AllFrames)).p1.state = FState.attack := by
  constructor
  · with_unfolding_all decide
  · with_unfolding_all decide

set_option maxRecDepth 400000 in
/-- Witness for C1's amended theorem at the same concrete frame: the
transition from `super` into `attack` indeed happened with the punch key
held and a movement key held. -/
theorem C1_witness :
    inpAJ.keyJ = true ∧ (moveVal inpAJ ≠ 0 ∨
      (brawlStateOf (brawlRun brawlInit c1PreFrames)).p1.state ≠ FState.super) := by
  have h := C1_amended_thm (brawlStateOf (brawlRun brawlInit c1PreFrames)) inpAJ (1/5)
    (brawlStateOf (brawlRun brawlInit c1AllFrames)) (by with_unfolding_all decide)
  exact h.1 (by with_unfolding_all decide) (by with_unfolding_all decide)

set_option maxRecDepth 400000 in
/-- C2 counterexample: from the initial state (fighters 384 pixels apart,
far outside the 60-pixel-wide hitbox) a punch input lands on nothing, yet
the attacker's super meter rises from 0 to 8 while the defender keeps full
health — meter is gained without the attack landing. -/
theorem C2_counterexample :
    (brawlStateOf (brawlUpdate brawlInit inpJ (1/10))).p1.superMeter = 8
    ∧ (brawlStateOf (brawlUpdate brawlInit inpJ (1/10))).p2.hp = 100
    ∧ brawlInit.p1.superMeter = 0 := by
  refine ⟨?_, ?_, rfl⟩
  · with_unfolding_all decide
  · with_unfolding_all decide

set_option maxRecDepth 400000 in
/-- Witness for C2's amended theorem at the same whiffed-punch frame. -/
theorem C2_witness :
    (brawlStateOf (brawlUpdate brawlInit inpJ (1/10))).p2.superMeter =
      brawlInit.p2.superMeter
    ∧ (brawlStateOf (brawlUpdate brawlInit inpJ (1/10))).p1.superMeter =
      clamp (brawlInit.p1.superMeter + 8) 0 100 := by
  have h := C2_amended_thm brawlInit inpJ (1/10)
    (brawlStateOf (brawlUpdate brawlInit inpJ (1/10)))
    (by with_unfolding_all decide)
  exact ⟨h.1, h.2 (by with_unfolding_all decide) (by with_unfolding_all decide)⟩

set_option maxRecDepth 400000 in
/-- C3 counterexample: in a fight in which the player lands exactly one
basic attack (6 damage) on the full-health AI fighter and nothing further
happens before the countdown expires, the defender's health at match end is
94 — but the attacker's super meter is no longer at its initial value, so
the attack did change other Fighter state. -/
theorem C3_counterexample :
    (brawlStateOf (brawlRun brawlInit c3Frames)).p2.hp = 94
    ∧ (brawlStateOf (brawlRun brawlInit c3Frames)).p1.superMeter ≠
        brawlInit.p1.superMeter := by
  constructor
  · with_unfolding_all decide
  · with_unfolding_all decide

set_option maxRecDepth 400000 in
/-- C3 amended: in that fight the defender's health at match end equals 94,
but other Fighter state does change — the attacker's super meter ends at 8
and the defender's position is shifted (by hit knockback and by the AI's
retreat after the transient hit-stun). -/
theorem C3_amended_thm :
    isKO (brawlRun brawlInit c3Frames) = false
    ∧ (brawlStateOf (brawlRun brawlInit c3Frames)).p2.hp = 94
    ∧ (brawlStateOf (brawlRun brawlInit c3Frames)).p1.superMeter = 8
    ∧ (brawlStateOf (brawlRun brawlInit c3Frames)).p2.x ≠ brawlInit.p2.x := by
  refine ⟨?_, ?_, ?_, ?_⟩ <;> with_unfolding_all decide

set_option maxRecDepth 400000 in
/-- Witness for C10 on a concrete knockout run: the match ends by health
with time remaining, and the AI fighter's health is exactly 0 there. -/
theorem C10_witness :
    (brawlStateOf (brawlRun brawlInit koFrames)).p2.hp = 0
    ∧ (brawlStateOf (brawlRun brawlInit koFrames)).p1.hp = 100 := by
  refine ⟨(C10_thm koFrames).2.2.2 ?_, (C10_thm koFrames).1⟩
  with_unfolding_all decide

end BigBarberBattle
